import Mathlib

/-!
Verification development for the deriv-ascend-pro trading core.

Shallow embedding of the decision-and-execution pipeline:
- `src/src/lib/indicators.ts` (technical indicator library),
- `src/src/lib/trading-engine.ts` (signal engine: positions, stats, calibration),
- `src/src/lib/deriv-websocket.ts` (message-handler table of the venue connection),
- the trade execution queue (`src/unnamed/part_000`: cooldowns, rate-limit flush).

JavaScript numbers are modelled as exact rationals (ℚ); `Math.sqrt`, whose
value is irrational in general, is abstracted as an explicit function
parameter.  JavaScript `Map` objects are modelled as insertion-ordered
association lists with JS `Map.set`/`get`/`has`/`delete` semantics.
Timestamps (`Date.now()`) are ℕ parameters.
-/

/-! ## JS `Map` model: insertion-ordered association lists -/

/-- JS `Map.prototype.get`: value of the first (unique) entry with this key. -/
def mapGet {α : Type} (m : List (String × α)) (k : String) : Option α :=
  (m.find? (fun p => p.1 = k)).map Prod.snd

/-- JS `Map.prototype.has`. -/
def mapHas {α : Type} (m : List (String × α)) (k : String) : Bool :=
  m.any (fun p => p.1 = k)

/-- JS `Map.prototype.set`: replace in place if the key exists, else append. -/
def mapSet {α : Type} (m : List (String × α)) (k : String) (v : α) : List (String × α) :=
  if mapHas m k then m.map (fun p => if p.1 = k then (k, v) else p)
  else m ++ [(k, v)]

/-- JS `Map.prototype.delete` (the result map; JS returns a Bool we ignore). -/
def mapDelete {α : Type} (m : List (String × α)) (k : String) : List (String × α) :=
  m.filter (fun p => p.1 ≠ k)

/-- Source `map.get(k) || d` / `map.get(k) ?? d` style defaulted lookup. -/
def mapGetD {α : Type} (m : List (String × α)) (k : String) (d : α) : α :=
  (mapGet m k).getD d

/-! ## Indicator library (`src/src/lib/indicators.ts`), prices as exact rationals -/

/-- Sum of a list of rationals (`reduce((a, b) => a + b, 0)`). -/
def sumQ (l : List ℚ) : ℚ := l.foldl (fun a b => a + b) 0

/-- JS `data.slice(-n)`: the last `n` elements (all of them when `n ≥ length`). -/
def takeLast {α : Type} (l : List α) (n : ℕ) : List α := l.drop (l.length - n)

/-- Source `calculateSMA`: arithmetic mean of the trailing `period` samples. -/
def calculateSMA (data : List ℚ) (period : ℕ) : Option ℚ :=
  if data.length < period then none
  else some (sumQ (takeLast data period) / period)

/-- Source `calculateEMA`: seeded from the simple average of the first `period`
samples, then the recurrence `ema = (x − ema) · 2/(period+1) + ema`. -/
def calculateEMA (data : List ℚ) (period : ℕ) : Option ℚ :=
  if data.length < period then none
  else
    let multiplier : ℚ := 2 / ((period : ℚ) + 1)
    let ema0 := sumQ (data.take period) / period
    some ((data.drop period).foldl (fun ema x => (x - ema) * multiplier + ema) ema0)

/-- Consecutive price deltas `data[i] − data[i−1]` (the `changes` array). -/
def priceChanges : List ℚ → List ℚ
  | [] => []
  | [_] => []
  | a :: b :: t => (b - a) :: priceChanges (b :: t)

/-- One step of the Wilder smoothing loop of `calculateRSI` on the pair
(average gain, average loss). -/
def rsiSmoothStep (period : ℕ) (gl : ℚ × ℚ) (c : ℚ) : ℚ × ℚ :=
  if c > 0 then
    ((gl.1 * ((period : ℚ) - 1) + c) / period, gl.2 * ((period : ℚ) - 1) / period)
  else
    (gl.1 * ((period : ℚ) - 1) / period, (gl.2 * ((period : ℚ) - 1) + |c|) / period)

/-- Initial (average gain, average loss) of `calculateRSI`, accumulated over
the first `period` deltas and divided by `period`. -/
def rsiInit (changes : List ℚ) (period : ℕ) : ℚ × ℚ :=
  let s := (changes.take period).foldl
    (fun gl c => if c > 0 then (gl.1 + c, gl.2) else (gl.1, gl.2 + |c|))
    ((0 : ℚ), (0 : ℚ))
  (s.1 / period, s.2 / period)

/-- Final Wilder-smoothed (average gain, average loss) of `calculateRSI`. -/
def rsiAverages (data : List ℚ) (period : ℕ) : ℚ × ℚ :=
  let changes := priceChanges data
  (changes.drop period).foldl (rsiSmoothStep period) (rsiInit changes period)

/-- Source `calculateRSI`: `none` below `period + 1` samples; RSI = 100 when the
smoothed average loss is exactly zero, else `100 − 100/(1 + gain/loss)`. -/
def calculateRSI (data : List ℚ) (period : ℕ) : Option ℚ :=
  if data.length < period + 1 then none
  else
    let avg := rsiAverages data period
    if avg.2 = 0 then some 100
    else some (100 - 100 / (1 + avg.1 / avg.2))

/-- Per-index `(plusDM, minusDM, trueRange)` triples of `calculateADX` /
`calculateATR`, computed for `i = 1 .. length−1` over parallel
highs/lows/closes. -/
def adxSteps : List ℚ → List ℚ → List ℚ → List (ℚ × ℚ × ℚ)
  | hPrev :: h :: hs, lPrev :: l :: ls, cPrev :: _c :: cs =>
    let highDiff := h - hPrev
    let lowDiff := lPrev - l
    let pdm := if highDiff > lowDiff ∧ highDiff > 0 then highDiff else 0
    let mdm := if lowDiff > highDiff ∧ lowDiff > 0 then lowDiff else 0
    let tr := max (h - l) (max |h - cPrev| |l - cPrev|)
    (pdm, mdm, tr) :: adxSteps (h :: hs) (l :: ls) (_c :: cs)
  | _, _, _ => []

/-- The DX-collecting loop of `calculateADX`: carries the Wilder-smoothed
(TR, plusDM, minusDM) and pushes a DX value only when the DI sum is
positive. -/
def adxDXLoop (period : ℕ) (sTR sPDM sMDM : ℚ) : List (ℚ × ℚ × ℚ) → List ℚ
  | [] => []
  | s :: rest =>
    let sTR2 := sTR - sTR / period + s.2.2
    let sPDM2 := sPDM - sPDM / period + s.1
    let sMDM2 := sMDM - sMDM / period + s.2.1
    let plusDI := sPDM2 / sTR2 * 100
    let minusDI := sMDM2 / sTR2 * 100
    let diDiff := |plusDI - minusDI|
    let diSum := plusDI + minusDI
    if diSum > 0 then diDiff / diSum * 100 :: adxDXLoop period sTR2 sPDM2 sMDM2 rest
    else adxDXLoop period sTR2 sPDM2 sMDM2 rest

/-- Companion of `adxDXLoop` recording the DI sum of every iteration of the
same loop (whether or not a DX value was pushed). -/
def adxDISumLoop (period : ℕ) (sTR sPDM sMDM : ℚ) : List (ℚ × ℚ × ℚ) → List ℚ
  | [] => []
  | s :: rest =>
    let sTR2 := sTR - sTR / period + s.2.2
    let sPDM2 := sPDM - sPDM / period + s.1
    let sMDM2 := sMDM - sMDM / period + s.2.1
    let plusDI := sPDM2 / sTR2 * 100
    let minusDI := sMDM2 / sTR2 * 100
    let diSum := plusDI + minusDI
    diSum :: adxDISumLoop period sTR2 sPDM2 sMDM2 rest

/-- The DX list computed by `calculateADX` after the seeding sums. -/
def adxDX (highs lows closes : List ℚ) (period : ℕ) : List ℚ :=
  let steps := adxSteps highs lows closes
  let initTR := sumQ ((steps.take period).map (fun s => s.2.2))
  let initPDM := sumQ ((steps.take period).map (fun s => s.1))
  let initMDM := sumQ ((steps.take period).map (fun s => s.2.1))
  adxDXLoop period initTR initPDM initMDM (steps.drop period)

/-- DI sums of every smoothing iteration of `calculateADX`. -/
def adxDISums (highs lows closes : List ℚ) (period : ℕ) : List ℚ :=
  let steps := adxSteps highs lows closes
  let initTR := sumQ ((steps.take period).map (fun s => s.2.2))
  let initPDM := sumQ ((steps.take period).map (fun s => s.1))
  let initMDM := sumQ ((steps.take period).map (fun s => s.2.1))
  adxDISumLoop period initTR initPDM initMDM (steps.drop period)

/-- Source `calculateADX`: `none` below `period · 2` samples, `none` when fewer than
`period` DX values were collected, else the Wilder-smoothed DX. -/
def calculateADX (highs lows closes : List ℚ) (period : ℕ) : Option ℚ :=
  if highs.length < period * 2 then none
  else
    let dx := adxDX highs lows closes period
    if dx.length < period then none
    else
      let adx0 := sumQ (dx.take period) / period
      some ((dx.drop period).foldl
        (fun adx d => (adx * ((period : ℚ) - 1) + d) / period) adx0)

/-- Bollinger band triple of `calculateBollingerBands`. -/
structure BollingerBands where
  upper : ℚ
  middle : ℚ
  lower : ℚ
deriving DecidableEq, Repr

/-- Source `calculateBollingerBands`: population standard deviation over the trailing
window; `Math.sqrt` (irrational in general) is the abstracted `sqrtFn`. -/
def calculateBollingerBands (sqrtFn : ℚ → ℚ) (data : List ℚ) (period : ℕ)
    (stdDev : ℚ) : Option BollingerBands :=
  if data.length < period then none
  else
    let slice := takeLast data period
    let middle := sumQ slice / period
    let squaredDiffs := slice.map (fun val => (val - middle) ^ 2)
    let variance := sumQ squaredDiffs / period
    let standardDeviation := sqrtFn variance
    some { upper := middle + standardDeviation * stdDev
           middle := middle
           lower := middle - standardDeviation * stdDev }

/-- Source `calculateMACD`: MACD line, signal line (EMA of the MACD series recomputed
over every extensible window `data.slice(0, i)`), histogram. -/
def calculateMACD (data : List ℚ) (fastPeriod slowPeriod signalPeriod : ℕ) :
    Option (ℚ × ℚ × ℚ) :=
  if data.length < slowPeriod + signalPeriod then none
  else
    match calculateEMA data fastPeriod, calculateEMA data slowPeriod with
    | some fastEMA, some slowEMA =>
      let macdLine := fastEMA - slowEMA
      let macdValues := (List.range (data.length + 1 - slowPeriod)).filterMap
        (fun j =>
          match calculateEMA (data.take (slowPeriod + j)) fastPeriod,
                calculateEMA (data.take (slowPeriod + j)) slowPeriod with
          | some f, some s => some (f - s)
          | _, _ => none)
      match calculateEMA macdValues signalPeriod with
      | none => none
      | some signalLine => some (macdLine, signalLine, macdLine - signalLine)
    | _, _ => none

/-- Source `calculateATR`: Wilder-smoothed true range (true ranges shared with the
ADX computation, same formula and loop). -/
def calculateATR (highs lows closes : List ℚ) (period : ℕ) : Option ℚ :=
  if highs.length < period + 1 then none
  else
    let trueRanges := (adxSteps highs lows closes).map (fun s => s.2.2)
    if trueRanges.length < period then none
    else
      let atr0 := sumQ (trueRanges.take period) / period
      some ((trueRanges.drop period).foldl
        (fun atr t => (atr * ((period : ℚ) - 1) + t) / period) atr0)

/-- The indicator snapshot returned by `calculateAllIndicators`. -/
structure IndicatorResult where
  rsi : Option ℚ
  adx : Option ℚ
  bollingerUpper : Option ℚ
  bollingerMiddle : Option ℚ
  bollingerLower : Option ℚ
  sma : Option ℚ
  ema : Option ℚ
  macd : Option (ℚ × ℚ × ℚ)
  atr : Option ℚ
deriving DecidableEq, Repr

/-- The JS defaulting expression `x || null` applied to a numeric band field:
an absent value stays absent, and the number `0` is falsy, so a computed `0`
is also coerced to `null`. -/
def orNull (x : Option ℚ) : Option ℚ :=
  match x with
  | none => none
  | some v => if v = 0 then none else some v

/-- Source `calculateAllIndicators` as invoked by the trading engine (no separate
highs/lows, so `h = l = prices`); default windows from the source. -/
def calculateAllIndicators (sqrtFn : ℚ → ℚ) (prices : List ℚ) : IndicatorResult :=
  let h := prices
  let l := prices
  let bollinger := calculateBollingerBands sqrtFn prices 20 2
  { rsi := calculateRSI prices 14
    adx := calculateADX h l prices 14
    bollingerUpper := orNull (bollinger.map (fun b => b.upper))
    bollingerMiddle := orNull (bollinger.map (fun b => b.middle))
    bollingerLower := orNull (bollinger.map (fun b => b.lower))
    sma := calculateSMA prices 20
    ema := calculateEMA prices 12
    macd := calculateMACD prices 12 26 9
    atr := calculateATR h l prices 14 }

/-! ## Signal engine (`src/src/lib/trading-engine.ts`) -/

/-- Trade direction. -/
inductive Dir
  | long
  | short
deriving DecidableEq, Repr

/-- Direction sign used in the P/L formula: +1 for LONG, −1 for SHORT. -/
def dirSign : Dir → ℚ
  | Dir.long => 1
  | Dir.short => -1

/-- Source string of a direction. -/
def dirStr : Dir → String
  | Dir.long => "LONG"
  | Dir.short => "SHORT"

/-- Position status (open / closed / pending). -/
inductive TradeStatus
  | «open»
  | closed
  | pending
deriving DecidableEq, Repr

/-- Trade result (win / loss). -/
inductive TradeOutcome
  | win
  | loss
deriving DecidableEq, Repr

/-- The `Trade` interface. -/
structure Trade where
  id : String
  symbol : String
  direction : Dir
  entryPrice : ℚ
  currentPrice : ℚ
  stake : ℚ
  profit : ℚ
  status : TradeStatus
  openTime : ℕ
  closeTime : Option ℕ
  result : Option TradeOutcome
deriving DecidableEq, Repr

/-- The `TradingStats` record. -/
structure TradingStats where
  totalTrades : ℕ
  wins : ℕ
  losses : ℕ
  winRate : ℚ
  totalProfit : ℚ
  isPaused : Bool
  pauseReason : Option String
deriving DecidableEq, Repr

/-- A tick update (`TickUpdate`). -/
structure TickUpdate where
  symbol : String
  quote : ℚ
  epoch : ℕ
deriving DecidableEq, Repr

/-- An emitted `TradeSignal` (rationale/indicator snapshot omitted; the
probability and direction fields are the ones the engine logic inspects). -/
structure TradeSignal where
  symbol : String
  direction : Dir
  probability : ℚ
  timestamp : ℕ
deriving DecidableEq, Repr

/-- Source `DERIV_CONFIG.MIN_PROBABILITY`. -/
def MIN_PROBABILITY : ℚ := 0.75

/-- Source `DERIV_CONFIG.WIN_RATE_FLOOR`. -/
def WIN_RATE_FLOOR : ℚ := 0.65

/-- Source `DERIV_CONFIG.CALIBRATION_PAUSE_MS`. -/
def CALIBRATION_PAUSE_MS : ℕ := 60000

/-- Mutable state of the `TradingEngine` singleton.  `pendingUnpause` models
the fire times of the `setTimeout` callbacks scheduled by
`pauseForCalibration` (each callback clears the pause flag when it fires). -/
structure EngineState where
  activeTrades : List (String × Trade)
  tradeJournal : List Trade
  stats : TradingStats
  symbolAdjustments : List (String × ℚ)
  pendingUnpause : List ℕ
  stake : ℚ
deriving DecidableEq, Repr

/-- The engine state right after construction. -/
def initEngineState : EngineState :=
  { activeTrades := []
    tradeJournal := []
    stats := { totalTrades := 0, wins := 0, losses := 0, winRate := 0,
               totalProfit := 0, isPaused := false, pauseReason := none }
    symbolAdjustments := []
    pendingUnpause := []
    stake := 1 }

/-- Source `pauseForCalibration`: set the pause flag and reason, clear all symbol
adjustments, and schedule an unpause `CALIBRATION_PAUSE_MS` later. -/
def pauseForCalibration (now : ℕ) (st : EngineState) : EngineState :=
  { st with
    stats := { st.stats with
      isPaused := true
      pauseReason := some "Market Calibration - Win rate below threshold" }
    symbolAdjustments := []
    pendingUnpause := st.pendingUnpause ++ [now + CALIBRATION_PAUSE_MS] }

/-- The adaptive-learning update of `closeTrade` on a loss:
`symbolAdjustments.set(symbol, (symbolAdjustments.get(symbol) || 0) + 0.02)`. -/
def recordLossAdj (adjs : List (String × ℚ)) (symbol : String) : List (String × ℚ) :=
  mapSet adjs symbol (mapGetD adjs symbol 0 + 0.02)

/-- Source `closeTrade`: close an active trade, append it to the journal, update the
aggregate statistics, bump the adjustment of the losing symbol, and enter a
calibration pause when the win rate fell below the floor after at least 10
recorded trades. -/
def closeTrade (tradeId : String) (result : TradeOutcome) (profit : ℚ) (now : ℕ)
    (st : EngineState) : EngineState :=
  match mapGet st.activeTrades tradeId with
  | none => st
  | some trade =>
    let trade2 := { trade with
      status := TradeStatus.closed
      closeTime := some now
      result := some result
      profit := profit }
    let totalTrades := st.stats.totalTrades + 1
    let wins := if result = TradeOutcome.win then st.stats.wins + 1 else st.stats.wins
    let losses := if result = TradeOutcome.win then st.stats.losses else st.stats.losses + 1
    let adjs := if result = TradeOutcome.win then st.symbolAdjustments
      else recordLossAdj st.symbolAdjustments trade.symbol
    let winRate : ℚ := if totalTrades > 0 then (wins : ℚ) / (totalTrades : ℚ) else 0
    let st2 := { st with
      activeTrades := mapDelete st.activeTrades tradeId
      tradeJournal := st.tradeJournal ++ [trade2]
      symbolAdjustments := adjs
      stats := { st.stats with
        totalTrades := totalTrades
        wins := wins
        losses := losses
        winRate := winRate
        totalProfit := st.stats.totalProfit + profit } }
    if 10 ≤ totalTrades ∧ winRate < WIN_RATE_FLOOR then pauseForCalibration now st2
    else st2

/-- The duplicate-position guard key tested by `analyzeSymbol`:
`` `${symbol}_${direction}` ``. -/
def tradeKey (symbol : String) (direction : Dir) : String :=
  symbol ++ "_" ++ dirStr direction

/-- The key under which `executeTrade` stores a new position:
`` `${symbol}_${direction}_${Date.now()}` ``. -/
def tradeId (symbol : String) (direction : Dir) (now : ℕ) : String :=
  symbol ++ "_" ++ dirStr direction ++ "_" ++ toString now

/-- The synchronous opening step of the engine function `executeTrade`: create a
pending position and store it in `activeTrades` under `tradeId` (entry and
current price 0 until the venue confirms). -/
def executeTradeOpen (signal : TradeSignal) (now : ℕ) (st : EngineState) : EngineState :=
  let trade : Trade :=
    { id := tradeId signal.symbol signal.direction now
      symbol := signal.symbol
      direction := signal.direction
      entryPrice := 0
      currentPrice := 0
      stake := st.stake
      profit := 0
      status := TradeStatus.pending
      openTime := now
      closeTime := none
      result := none }
  { st with activeTrades := mapSet st.activeTrades (tradeId signal.symbol signal.direction now) trade }

/-- The decision structure of `analyzeSymbol`.  `probability` and `direction`
stand for the outputs of the pure scoring step `calculateTradeProbability`,
over which the claims quantify universally.  Returns the updated state
together with the list of emitted signals. -/
def analyzeSymbol (st : EngineState) (symbol : String) (direction : Dir)
    (probability : ℚ) (now : ℕ) : EngineState × List TradeSignal :=
  if st.stats.isPaused then (st, [])
  else
    let adjustment := mapGetD st.symbolAdjustments symbol 0
    let adjustedProbability := max 0 (min 1 (probability - adjustment))
    if MIN_PROBABILITY ≤ adjustedProbability then
      let signal : TradeSignal :=
        { symbol := symbol, direction := direction,
          probability := adjustedProbability, timestamp := now }
      let st2 :=
        if mapHas st.activeTrades (tradeKey symbol direction) then st
        else executeTradeOpen signal now st
      (st2, [signal])
    else (st, [])

/-- Source `updateActiveTrades` applied to one stored trade: on a matching symbol
with status `open`, set the current price to the tick quote and recompute
the running profit as `(quote − entry) × direction × 100`. -/
def updateTradeTick (tick : TickUpdate) (trade : Trade) : Trade :=
  if trade.symbol = tick.symbol ∧ trade.status = TradeStatus.«open» then
    { trade with
      currentPrice := tick.quote
      profit := (tick.quote - trade.entryPrice) * dirSign trade.direction * 100 }
  else trade

/-- Source `updateActiveTrades`: apply `updateTradeTick` to every active position. -/
def updateActiveTrades (tick : TickUpdate) (trades : List (String × Trade)) :
    List (String × Trade) :=
  trades.map (fun p => (p.1, updateTradeTick tick p.2))

/-- A fired calibration `setTimeout` callback: clear the pause flag and
reason. -/
def fireUnpause (st : EngineState) : EngineState :=
  { st with stats := { st.stats with isPaused := false, pauseReason := none } }

/-- Advance wall-clock time to `t`: every scheduled unpause whose fire time
has been reached fires (clearing the pause) and is removed. -/
def advanceTo (t : ℕ) (st : EngineState) : EngineState :=
  if st.pendingUnpause.any (fun f => f ≤ t) then
    { fireUnpause st with pendingUnpause := st.pendingUnpause.filter (fun f => ¬ f ≤ t) }
  else st

/-! ## Venue connection handler table (`src/src/lib/deriv-websocket.ts`)

`messageHandlers : Map<string, MessageHandler[]>` is modelled as an
association list from message type to the list of registered handler
identities (ℕ tags standing for the closure objects). -/

/-- A `Map<string, MessageHandler[]>` keyed by message type. -/
abbrev HandlerTable : Type := List (String × List ℕ)

/-- Source `onMessage(msgType, handler)`: append the handler to the list registered
for this message type. -/
def onMessage (tbl : HandlerTable) (msgType : String) (h : ℕ) : HandlerTable :=
  mapSet tbl msgType (mapGetD tbl msgType [] ++ [h])

/-- The registration performed by `buyContract`: registering under the message type buy. -/
def buyContractRegister (tbl : HandlerTable) (h : ℕ) : HandlerTable :=
  onMessage tbl "buy" h

/-- The table cleanup the `buyContract` response handler performs after it
fires: `` this.messageHandlers.delete(`buy_${reqId}`) ``. -/
def buyHandlerCleanup (tbl : HandlerTable) (reqId : ℕ) : HandlerTable :=
  mapDelete tbl ("buy_" ++ toString reqId)

/-! ## Trade execution queue (`src/unnamed/part_000`) -/

/-- Queued-intent status. -/
inductive QStatus
  | pending
  | executing
  | completed
  | failed
  | cancelled
deriving DecidableEq, Repr

/-- Contract type (CALL / PUT). -/
inductive CType
  | CALL
  | PUT
deriving DecidableEq, Repr

/-- A `QueuedTrade` (the `resolve`/`reject` callbacks are modelled by the
resolution lists the operations below return). -/
structure QueuedTrade where
  id : String
  symbol : String
  contractType : CType
  amount : ℚ
  duration : ℕ
  durationUnit : String
  priority : ℤ
  addedAt : ℕ
  status : QStatus
deriving DecidableEq, Repr

/-- The venue `TradeResult` as consumed by the queue. -/
structure TradeResultM where
  success : Bool
  contractId : Option String
  error : Option String
deriving DecidableEq, Repr

/-- Mutable state of the `TradeQueue` singleton. -/
structure QueueState where
  queue : List QueuedTrade
  pendingSymbols : List String
  symbolCooldowns : List (String × ℕ)
  isThrottled : Bool
  throttleEndsAt : Option ℕ
  lastExecutionTime : Option ℕ
deriving DecidableEq, Repr

/-- Source `MIN_EXECUTION_INTERVAL_MS`. -/
def MIN_EXECUTION_INTERVAL_MS : ℕ := 2000

/-- Source `COOLDOWN_PER_ASSET_MS`. -/
def COOLDOWN_PER_ASSET_MS : ℕ := 60000

/-- Source `RATE_LIMIT_BACKOFF_MS`. -/
def RATE_LIMIT_BACKOFF_MS : ℕ := 5000

/-- ASCII lowering of a string (JS `toLowerCase` on the messages involved). -/
def strToLower (s : String) : String := String.mk (s.data.map Char.toLower)

/-- Substring test on character lists (JS `String.prototype.includes`). -/
def subSearch (needle : List Char) : List Char → Bool
  | [] => needle.isEmpty
  | c :: t => needle.isPrefixOf (c :: t) || subSearch needle t

/-- JS `hay.includes(needle)`. -/
def strContains (hay needle : String) : Bool := subSearch needle.data hay.data

/-- The rate-limit test of `executeTrade`:
errorLower includes one of "rate limit", "too many", "throttle". -/
def isRateLimitError (msg : String) : Bool :=
  let m := strToLower msg
  strContains m "rate limit" || strContains m "too many" || strContains m "throttle"

/-- Whether an optional error message is present and indicates rate limiting
(the `!result.success && result.error` guard together with the inner test). -/
def hasRateLimitErrorMsg : Option String → Bool
  | none => false
  | some m => isRateLimitError m

/-- The awaited outcome of `derivWS.buyContract` inside the queue
function `executeTrade`: either a resolved `TradeResult` or a thrown fault. -/
inductive BuyOutcome
  | res (r : TradeResultM)
  | thrown (msg : String)
deriving DecidableEq, Repr

/-- The canned failure a flushed intent is resolved with. -/
def rateLimitCancelResult : TradeResultM :=
  { success := false, contractId := none,
    error := some "Trade cancelled due to rate limit backoff" }

/-- Observable effects of `handleRateLimitError`. -/
structure RateLimitEffect where
  state : QueueState
  cancelled : List QueuedTrade
  resolved : List (String × TradeResultM)
  notices : List String
deriving DecidableEq, Repr

/-- Source `handleRateLimitError`: notify observers, enter the throttled state with
the fixed backoff expiry, splice the whole queue out, mark every spliced
intent cancelled and resolve it as failed, and notify the flushed count. -/
def handleRateLimitError (now : ℕ) (st : QueueState) : RateLimitEffect :=
  let notice1 := "API THROTTLING: Rate limit detected. Backing off for 5 seconds..."
  let st1 := { st with
    isThrottled := true
    throttleEndsAt := some (now + RATE_LIMIT_BACKOFF_MS) }
  let cancelledTrades := st1.queue.map (fun t => { t with status := QStatus.cancelled })
  let pend := cancelledTrades.foldl
    (fun ps t => ps.filter (fun s => s ≠ t.symbol)) st1.pendingSymbols
  { state := { st1 with queue := [], pendingSymbols := pend }
    cancelled := cancelledTrades
    resolved := cancelledTrades.map (fun t => (t.id, rateLimitCancelResult))
    notices := [notice1,
      "Queue cleared: " ++ toString cancelledTrades.length ++ " trades cancelled"] }

/-- Observable effects of the queue function `executeTrade`. -/
structure ExecEffect where
  state : QueueState
  trade : QueuedTrade
  cancelled : List QueuedTrade
  resolved : List (String × TradeResultM)
  notices : List String
deriving DecidableEq, Repr

/-- The queue function `executeTrade` (`trade` was already shifted off the queue by
the drain loop, so `st.queue` holds the *other* intents): on a resolved
result, record the execution time, divert to `handleRateLimitError` on a
rate-limit failure, otherwise set the per-asset cooldown and resolve; on a
thrown fault, divert to `handleRateLimitError` if the message indicates rate
limiting and resolve as failed without touching the cooldown table. -/
def executeTrade (now : ℕ) (outcome : BuyOutcome) (trade : QueuedTrade)
    (st : QueueState) : ExecEffect :=
  let trade1 := { trade with status := QStatus.executing }
  match outcome with
  | BuyOutcome.res result =>
    let st1 := { st with lastExecutionTime := some now }
    if !result.success && hasRateLimitErrorMsg result.error then
      let e := handleRateLimitError now st1
      { state := e.state
        trade := { trade1 with status := QStatus.failed }
        cancelled := e.cancelled
        resolved := e.resolved ++ [(trade.id, result)]
        notices := e.notices }
    else
      let st2 := { st1 with
        symbolCooldowns := mapSet st1.symbolCooldowns trade.symbol (now + COOLDOWN_PER_ASSET_MS) }
      { state := st2
        trade := { trade1 with
          status := if result.success then QStatus.completed else QStatus.failed }
        cancelled := []
        resolved := [(trade.id, result)]
        notices := [] }
  | BuyOutcome.thrown msg =>
    if isRateLimitError msg then
      let e := handleRateLimitError now st
      { state := e.state
        trade := { trade1 with status := QStatus.failed }
        cancelled := e.cancelled
        resolved := e.resolved ++
          [(trade.id, { success := false, contractId := none, error := some msg })]
        notices := e.notices }
    else
      { state := st
        trade := { trade1 with status := QStatus.failed }
        cancelled := []
        resolved := [(trade.id, { success := false, contractId := none, error := some msg })]
        notices := [] }

/-! ## Concrete verification inputs -/

/-- Strictly increasing price sequence of length 28 (= 2 × the default ADX
period): every DI sum is positive, yet the DX list cannot reach length 14. -/
def inc28 : List ℚ := [0, 1, 2, 3, 4, 5, 6, 7, 8, 9, 10, 11, 12, 13, 14, 15, 16, 17, 18, 19, 20, 21, 22, 23, 24, 25, 26, 27]

/-- Strictly increasing price sequence of length 29 (= 2 × period + 1). -/
def inc29 : List ℚ := [0, 1, 2, 3, 4, 5, 6, 7, 8, 9, 10, 11, 12, 13, 14, 15, 16, 17, 18, 19, 20, 21, 22, 23, 24, 25, 26, 27, 28]

/-- A queued intent under execution, used as concrete input. -/
def demoQueuedTrade : QueuedTrade :=
  { id := "R_10_CALL_5", symbol := "R_10", contractType := CType.CALL,
    amount := 1, duration := 5, durationUnit := "t", priority := 0,
    addedAt := 0, status := QStatus.executing }

/-- A second queued intent, still waiting in the queue. -/
def demoQueuedTradeB : QueuedTrade :=
  { id := "R_25_PUT_6", symbol := "R_25", contractType := CType.PUT,
    amount := 2, duration := 5, durationUnit := "t", priority := 1,
    addedAt := 3, status := QStatus.pending }

/-- Queue state with one other intent queued behind the executing one. -/
def demoQueueState : QueueState :=
  { queue := [demoQueuedTradeB], pendingSymbols := ["R_10", "R_25"],
    symbolCooldowns := [], isThrottled := false, throttleEndsAt := none,
    lastExecutionTime := none }

/-- An open LONG position entered at 100. -/
def demoOpenTrade : Trade :=
  { id := "R_10_LONG_1", symbol := "R_10", direction := Dir.long,
    entryPrice := 100, currentPrice := 100, stake := 1, profit := 0,
    status := TradeStatus.«open», openTime := 1, closeTime := none,
    result := none }

/-- A tick on the same instrument at 103. -/
def demoTick : TickUpdate := { symbol := "R_10", quote := 103, epoch := 2 }

/-- Engine state holding one open position, with 9 recorded trades and no
wins: one more recorded loss reaches the 10-trade minimum with win rate 0. -/
def demoEngineNineLosses : EngineState :=
  { activeTrades := [("R_10_LONG_1", demoOpenTrade)]
    tradeJournal := []
    stats := { totalTrades := 9, wins := 0, losses := 9, winRate := 0,
               totalProfit := -9, isPaused := false, pauseReason := none }
    symbolAdjustments := [("R_10", 0.04)]
    pendingUnpause := []
    stake := 1 }

/-- A paused engine state. -/
def demoEnginePaused : EngineState :=
  { activeTrades := []
    tradeJournal := []
    stats := { totalTrades := 10, wins := 0, losses := 10, winRate := 0,
               totalProfit := -10, isPaused := true,
               pauseReason := some "Market Calibration - Win rate below threshold" }
    symbolAdjustments := []
    pendingUnpause := [60100]
    stake := 1 }

/-- Engine state with a single open position and a fresh statistics record
(closing a trade here cannot trigger the calibration pause). -/
def demoEngineFresh : EngineState :=
  { activeTrades := [("R_10_LONG_1", demoOpenTrade)]
    tradeJournal := []
    stats := { totalTrades := 0, wins := 0, losses := 0, winRate := 0,
               totalProfit := 0, isPaused := false, pauseReason := none }
    symbolAdjustments := []
    pendingUnpause := []
    stake := 1 }

/-! ## Lemmas about the JS `Map` model -/

theorem mapGet_cons {α : Type} (p : String × α) (t : List (String × α)) (k : String) :
    mapGet (p :: t) k = if p.1 = k then some p.2 else mapGet t k := by
  by_cases hp : p.1 = k
  · simp only [mapGet, if_pos hp]
    rw [List.find?_cons_of_pos _ (by simpa using hp)]
    rfl
  · simp only [mapGet, if_neg hp]
    rw [List.find?_cons_of_neg _ (by simpa using hp)]

theorem mapHas_cons {α : Type} (p : String × α) (t : List (String × α)) (k : String) :
    mapHas (p :: t) k = (decide (p.1 = k) || mapHas t k) := by
  simp [mapHas]

theorem mapGet_replace_self {α : Type} (k : String) (v : α) :
    ∀ m : List (String × α), mapHas m k = true →
      mapGet (m.map (fun p => if p.1 = k then (k, v) else p)) k = some v := by
  intro m
  induction m with
  | nil => intro h; simp [mapHas] at h
  | cons p t ih =>
    intro h
    by_cases hp : p.1 = k
    · simp [List.map_cons, if_pos hp, mapGet_cons]
    · rw [mapHas_cons, decide_eq_false hp, Bool.false_or] at h
      simp only [List.map_cons, if_neg hp, mapGet_cons, if_neg hp]
      exact ih h

theorem mapGet_append_self {α : Type} (k : String) (v : α) :
    ∀ m : List (String × α), mapHas m k = false →
      mapGet (m ++ [(k, v)]) k = some v := by
  intro m
  induction m with
  | nil => intro _; simp [mapGet_cons, mapGet]
  | cons p t ih =>
    intro h
    rw [mapHas_cons, Bool.or_eq_false_iff] at h
    have hp : ¬ p.1 = k := by
      intro hc
      rw [decide_eq_true hc] at h
      exact Bool.true_eq_false.mp h.1
    rw [List.cons_append, mapGet_cons, if_neg hp]
    exact ih h.2

theorem mapGet_replace_other {α : Type} (k k2 : String) (v : α) (hne : k2 ≠ k) :
    ∀ m : List (String × α),
      mapGet (m.map (fun p => if p.1 = k then (k, v) else p)) k2 = mapGet m k2 := by
  intro m
  induction m with
  | nil => rfl
  | cons p t ih =>
    by_cases hp : p.1 = k
    · have h1 : ¬ (k, v).1 = k2 := fun hc => hne hc.symm
      have h2 : ¬ p.1 = k2 := fun hc => hne (by rw [← hc, hp])
      simp only [List.map_cons, if_pos hp, mapGet_cons, if_neg h1, if_neg h2]
      exact ih
    · by_cases hp2 : p.1 = k2
      · simp only [List.map_cons, if_neg hp, mapGet_cons, if_pos hp2]
      · simp only [List.map_cons, if_neg hp, mapGet_cons, if_neg hp2]
        exact ih

theorem mapGet_append_other {α : Type} (k k2 : String) (v : α) (hne : k2 ≠ k) :
    ∀ m : List (String × α), mapGet (m ++ [(k, v)]) k2 = mapGet m k2 := by
  intro m
  induction m with
  | nil =>
    have h1 : ¬ (k, v).1 = k2 := fun hc => hne hc.symm
    simp only [List.nil_append, mapGet_cons, if_neg h1]
  | cons p t ih =>
    by_cases hp2 : p.1 = k2
    · simp only [List.cons_append, mapGet_cons, if_pos hp2]
    · simp only [List.cons_append, mapGet_cons, if_neg hp2]
      exact ih

theorem mapGet_set_self {α : Type} (m : List (String × α)) (k : String) (v : α) :
    mapGet (mapSet m k v) k = some v := by
  unfold mapSet
  by_cases h : mapHas m k = true
  · rw [if_pos h]; exact mapGet_replace_self k v m h
  · rw [if_neg h]
    exact mapGet_append_self k v m (Bool.not_eq_true _ ▸ Bool.eq_false_iff.mpr h)

theorem mapGet_set_other {α : Type} (m : List (String × α)) (k k2 : String) (v : α)
    (hne : k2 ≠ k) : mapGet (mapSet m k v) k2 = mapGet m k2 := by
  unfold mapSet
  by_cases h : mapHas m k = true
  · rw [if_pos h]; exact mapGet_replace_other k k2 v hne m
  · rw [if_neg h]; exact mapGet_append_other k k2 v hne m

/-! ## Claim theorems -/

/-- Claim C1.  The duplicate-position guard of `analyzeSymbol` tests the key
`symbol_direction`, but `executeTrade` stores positions under
`symbol_direction_timestamp`, so the guard never matches: two above-threshold
evaluations for the same instrument and direction at times 1 and 2 leave TWO
active pending positions with the same instrument and the same direction,
refuting the claimed invariant. -/
theorem c1_guard_key_mismatch_allows_duplicates :
    mapHas (analyzeSymbol initEngineState "R_10" Dir.long 0.8 1).1.activeTrades
      (tradeKey "R_10" Dir.long) = false ∧
    (analyzeSymbol (analyzeSymbol initEngineState "R_10" Dir.long 0.8 1).1
      "R_10" Dir.long 0.8 2).1.activeTrades.length = 2 ∧
    ∀ p ∈ (analyzeSymbol (analyzeSymbol initEngineState "R_10" Dir.long 0.8 1).1
      "R_10" Dir.long 0.8 2).1.activeTrades,
      p.2.symbol = "R_10" ∧ p.2.direction = Dir.long ∧
      p.2.status = TradeStatus.pending := by
  have e1 : tradeId "R_10" Dir.long 1 = "R_10_LONG_1" := by decide
  have e2 : tradeId "R_10" Dir.long 2 = "R_10_LONG_2" := by decide
  have e3 : tradeKey "R_10" Dir.long = "R_10_LONG" := by decide
  norm_num [analyzeSymbol, initEngineState, executeTradeOpen, e1, e2, e3,
    mapHas, mapSet, mapGetD, mapGet, MIN_PROBABILITY]
  simp
  rintro a b (⟨-, rfl⟩ | ⟨-, rfl⟩) <;> exact ⟨rfl, rfl, rfl⟩

/-- Claim C2.  After one completed `buyContract` call (handler tag 7,
`reqId = 100`) whose `buy` response arrived and whose handler ran its cleanup
`` messageHandlers.delete(`buy_${reqId}`) ``, the handler is STILL registered
under the message type buy — the cleanup deletes a key that was never
populated, so the cleanup is a no-op, the handler leaks, and it will fire
again on every later `buy` response, refuting the claim. -/
theorem c2_buy_handler_not_removed :
    buyHandlerCleanup (buyContractRegister [] 7) 100 = buyContractRegister [] 7 ∧
    mapGet (buyHandlerCleanup (buyContractRegister [] 7) 100) "buy" = some [7] := by
  constructor
  · simp [buyHandlerCleanup, buyContractRegister, onMessage, mapSet, mapDelete,
      mapGet, mapGetD, mapHas]
    decide
  · simp [buyHandlerCleanup, buyContractRegister, onMessage, mapSet, mapDelete,
      mapGet, mapGetD, mapHas]
    decide

/-- Claim C5, counterexample.  A long position entered at 100 updated by a
tick at 103 carries running profit 300, not `(103 − 100) × (+1) = 3`: the
code multiplies by the additional fixed scale factor 100 that the claimed
formula omits. -/
theorem c5_profit_scale_counterexample :
    (updateTradeTick demoTick demoOpenTrade).profit = 300 ∧
    (300 : ℚ) ≠ ((103 : ℚ) - 100) * dirSign Dir.long := by
  constructor
  · simp [updateTradeTick, demoTick, demoOpenTrade, dirSign]
    norm_num
  · simp [dirSign]
    norm_num

/-- Claim C5, amended.  On each tick, `updateActiveTrades` applies
`updateTradeTick` to every active position, and every position on the instrument of the tick with status `open` gets its current price set to the tick quote
and its running profit recomputed as
`(current − entry) × direction-sign × 100` (the fixed scale factor of the source). -/
theorem c5_profit_update_amended :
    ∀ (tick : TickUpdate) (trades : List (String × Trade)),
      updateActiveTrades tick trades
        = trades.map (fun p => (p.1, updateTradeTick tick p.2)) ∧
      ∀ tr : Trade, tr.symbol = tick.symbol → tr.status = TradeStatus.«open» →
        (updateTradeTick tick tr).currentPrice = tick.quote ∧
        (updateTradeTick tick tr).profit
          = (tick.quote - tr.entryPrice) * dirSign tr.direction * 100 := by
  intro tick trades
  refine ⟨rfl, ?_⟩
  intro tr h1 h2
  simp [updateTradeTick, h1, h2]

/-- Witness for C5: the open long at entry 100 and the tick at 103. -/
theorem c5_profit_update_amended_witness :
    (updateTradeTick demoTick demoOpenTrade).currentPrice = demoTick.quote ∧
    (updateTradeTick demoTick demoOpenTrade).profit
      = (demoTick.quote - demoOpenTrade.entryPrice) * dirSign demoOpenTrade.direction * 100 :=
  (c5_profit_update_amended demoTick []).2 demoOpenTrade rfl rfl

/-- Claim C3, counterexample.  A queued intent whose venue result is the
rate-limit failure `"Rate limit exceeded"` is executed, yet afterwards the
cooldown table is still empty: the rate-limit path returns before the
cooldown assignment, so the cooldown entry is NOT set for that attempt,
refuting the part of the claim that includes rate-limit errors. -/
theorem c3_rate_limit_result_skips_cooldown :
    (executeTrade 1000
      (BuyOutcome.res { success := false, contractId := none,
                        error := some "Rate limit exceeded" })
      demoQueuedTrade demoQueueState).state.symbolCooldowns = [] := by
  have h : hasRateLimitErrorMsg (some "Rate limit exceeded") = true := by decide
  simp [executeTrade, handleRateLimitError, demoQueuedTrade, demoQueueState, h]

/-- Claim C3, amended.  The cooldown table entry for the instrument of the intent
is set to the execution time plus the fixed per-asset cooldown immediately
after every attempt that completes with a venue result that is not a
rate-limit error — success and failure alike; when the result is a rate-limit
error, or when execution throws, the cooldown table is left unchanged (the
rate-limit path throttles and flushes the queue instead). -/
theorem c3_cooldown_amended :
    (∀ (now : ℕ) (st : QueueState) (trade : QueuedTrade) (r : TradeResultM),
      (!r.success && hasRateLimitErrorMsg r.error) = false →
      mapGet (executeTrade now (BuyOutcome.res r) trade st).state.symbolCooldowns
          trade.symbol
        = some (now + COOLDOWN_PER_ASSET_MS)) ∧
    (∀ (now : ℕ) (st : QueueState) (trade : QueuedTrade) (r : TradeResultM),
      (!r.success && hasRateLimitErrorMsg r.error) = true →
      (executeTrade now (BuyOutcome.res r) trade st).state.symbolCooldowns
        = st.symbolCooldowns) ∧
    (∀ (now : ℕ) (st : QueueState) (trade : QueuedTrade) (msg : String),
      (executeTrade now (BuyOutcome.thrown msg) trade st).state.symbolCooldowns
        = st.symbolCooldowns) := by
  refine ⟨?_, ?_, ?_⟩
  · intro now st trade r h
    simp [executeTrade, h, mapGet_set_self]
  · intro now st trade r h
    simp [executeTrade, handleRateLimitError, h]
  · intro now st trade msg
    by_cases h : isRateLimitError msg <;>
      simp [executeTrade, handleRateLimitError, h]

/-- Witness for C3: a successful execution at time 500 places the instrument
on cooldown until 500 + 60000. -/
theorem c3_cooldown_amended_witness :
    mapGet (executeTrade 500
      (BuyOutcome.res { success := true, contractId := some "C77", error := none })
      demoQueuedTrade demoQueueState).state.symbolCooldowns demoQueuedTrade.symbol
      = some (500 + COOLDOWN_PER_ASSET_MS) :=
  c3_cooldown_amended.1 500 demoQueueState demoQueuedTrade
    { success := true, contractId := some "C77", error := none } (by decide)

/-- Claim C4.  A rate-limit venue result during execution of intent A puts
the queue in the throttled state expiring at `now + RATE_LIMIT_BACKOFF_MS`,
empties the queue, marks every other queued intent cancelled and resolves it
as failed (a full flush), and notifies observers of the throttle event and of
a flushed count equal to the queue depth immediately prior to the flush. -/
theorem c4_rate_limit_flush :
    ∀ (now : ℕ) (st : QueueState) (trade : QueuedTrade) (m : String),
      isRateLimitError m = true →
      let result : TradeResultM := { success := false, contractId := none, error := some m }
      let e := executeTrade now (BuyOutcome.res result) trade st
      e.state.isThrottled = true ∧
      e.state.throttleEndsAt = some (now + RATE_LIMIT_BACKOFF_MS) ∧
      e.state.queue = [] ∧
      e.cancelled = st.queue.map (fun t => { t with status := QStatus.cancelled }) ∧
      (∀ t ∈ e.cancelled, t.status = QStatus.cancelled) ∧
      e.resolved = st.queue.map (fun t => (t.id, rateLimitCancelResult))
        ++ [(trade.id, result)] ∧
      (∀ p ∈ e.resolved, p.2.success = false) ∧
      e.notices = ["API THROTTLING: Rate limit detected. Backing off for 5 seconds...",
        "Queue cleared: " ++ toString st.queue.length ++ " trades cancelled"] := by
  intro now st trade m h
  have hh : hasRateLimitErrorMsg (some m) = true := by
    simpa [hasRateLimitErrorMsg] using h
  refine ⟨?_, ?_, ?_, ?_, ?_, ?_, ?_, ?_⟩
  · simp [executeTrade, handleRateLimitError, hh]
  · simp [executeTrade, handleRateLimitError, hh]
  · simp [executeTrade, handleRateLimitError, hh]
  · simp [executeTrade, handleRateLimitError, hh]
  · simp only [executeTrade, handleRateLimitError, hh, Bool.not_false, Bool.true_and,
      if_true]
    intro t ht
    simp only [List.mem_map] at ht
    obtain ⟨u, -, hu⟩ := ht
    rw [← hu]
  · simp [executeTrade, handleRateLimitError, hh]
  · simp only [executeTrade, handleRateLimitError, hh, Bool.not_false, Bool.true_and,
      if_true]
    intro p hp
    simp only [List.mem_append, List.mem_map, List.mem_singleton] at hp
    rcases hp with ⟨u, -, hu⟩ | hu
    · rw [← hu]; rfl
    · rw [hu]
  · simp [executeTrade, handleRateLimitError, hh]

/-- Witness for C4: intent A (on R_10) hits `"Rate limit exceeded"` while one
intent is queued behind it; the queue throttles, flushes, and reports a flush
count of 1. -/
theorem c4_rate_limit_flush_witness :
    (executeTrade 0
      (BuyOutcome.res { success := false, contractId := none,
                        error := some "Rate limit exceeded" })
      demoQueuedTrade demoQueueState).state.isThrottled = true ∧
    (executeTrade 0
      (BuyOutcome.res { success := false, contractId := none,
                        error := some "Rate limit exceeded" })
      demoQueuedTrade demoQueueState).state.queue = [] ∧
    (executeTrade 0
      (BuyOutcome.res { success := false, contractId := none,
                        error := some "Rate limit exceeded" })
      demoQueuedTrade demoQueueState).notices
      = ["API THROTTLING: Rate limit detected. Backing off for 5 seconds...",
         "Queue cleared: " ++ toString demoQueueState.queue.length ++ " trades cancelled"] := by
  have h := c4_rate_limit_flush 0 demoQueueState demoQueuedTrade
    "Rate limit exceeded" (by decide)
  exact ⟨h.1, h.2.2.1, h.2.2.2.2.2.2.2⟩

/-- Claim C6.  (a) `closeTrade` on an active trade triggers the calibration
pause exactly when, after the update, the total trade count has reached 10
and the updated win rate is below `WIN_RATE_FLOOR` — entering the pause sets
the flag, resets all adaptive adjustments, and schedules the automatic
unpause at `now + CALIBRATION_PAUSE_MS`; otherwise the pause flag and the
scheduled unpauses are untouched.  (b) While the pause flag is set, tick
analysis emits no signal and submits no order regardless of the computed
score.  (c) Once a scheduled unpause time is reached, the pause flag and
reason are cleared. -/
theorem c6_calibration_pause :
    (∀ (st : EngineState) (id : String) (res : TradeOutcome) (profit : ℚ)
       (now : ℕ) (tr : Trade),
      mapGet st.activeTrades id = some tr →
      ((10 ≤ st.stats.totalTrades + 1 ∧
        ((if res = TradeOutcome.win then st.stats.wins + 1 else st.stats.wins : ℕ) : ℚ)
          / ((st.stats.totalTrades + 1 : ℕ) : ℚ) < WIN_RATE_FLOOR) →
        (closeTrade id res profit now st).stats.isPaused = true ∧
        (closeTrade id res profit now st).symbolAdjustments = [] ∧
        (closeTrade id res profit now st).pendingUnpause
          = st.pendingUnpause ++ [now + CALIBRATION_PAUSE_MS]) ∧
      (¬ (10 ≤ st.stats.totalTrades + 1 ∧
        ((if res = TradeOutcome.win then st.stats.wins + 1 else st.stats.wins : ℕ) : ℚ)
          / ((st.stats.totalTrades + 1 : ℕ) : ℚ) < WIN_RATE_FLOOR) →
        (closeTrade id res profit now st).stats.isPaused = st.stats.isPaused ∧
        (closeTrade id res profit now st).pendingUnpause = st.pendingUnpause)) ∧
    (∀ (st : EngineState) (symbol : String) (direction : Dir) (probability : ℚ)
       (now : ℕ), st.stats.isPaused = true →
      analyzeSymbol st symbol direction probability now = (st, [])) ∧
    (∀ (st : EngineState) (f t : ℕ), f ∈ st.pendingUnpause → f ≤ t →
      (advanceTo t st).stats.isPaused = false ∧
      (advanceTo t st).stats.pauseReason = none) := by
  refine ⟨?_, ?_, ?_⟩
  · intro st id res profit now tr hget
    have hpos : 0 < st.stats.totalTrades + 1 := Nat.succ_pos _
    unfold closeTrade
    rw [hget]
    simp only [gt_iff_lt, hpos, if_true]
    constructor
    · intro hcond
      rw [if_pos hcond]
      simp [pauseForCalibration]
    · intro hcond
      rw [if_neg hcond]
      exact ⟨rfl, rfl⟩
  · intro st symbol direction probability now h
    simp [analyzeSymbol, h]
  · intro st f t hf hle
    have hany : st.pendingUnpause.any (fun x => decide (x ≤ t)) = true :=
      List.any_eq_true.mpr ⟨f, hf, decide_eq_true hle⟩
    simp [advanceTo, fireUnpause, hany]

/-- Witness for C6: a 10th consecutive loss pauses the engine; a paused
engine analyzes a perfect-score tick to no signal; time reaching the
scheduled unpause clears the flag. -/
theorem c6_calibration_pause_witness :
    (closeTrade "R_10_LONG_1" TradeOutcome.loss (-1) 100
      demoEngineNineLosses).stats.isPaused = true ∧
    analyzeSymbol demoEnginePaused "R_10" Dir.long 1 5 = (demoEnginePaused, []) ∧
    (advanceTo 60100 demoEnginePaused).stats.isPaused = false := by
  refine ⟨((c6_calibration_pause.1 demoEngineNineLosses "R_10_LONG_1"
      TradeOutcome.loss (-1) 100 demoOpenTrade ?_).1 ?_).1,
    c6_calibration_pause.2.1 demoEnginePaused "R_10" Dir.long 1 5 rfl,
    (c6_calibration_pause.2.2 demoEnginePaused 60100 60100 ?_ (le_refl _)).1⟩
  · simp [demoEngineNineLosses, mapGet]
  · refine ⟨by norm_num [demoEngineNineLosses], ?_⟩
    rw [if_neg (by simp : ¬ TradeOutcome.loss = TradeOutcome.win)]
    norm_num [demoEngineNineLosses, WIN_RATE_FLOOR]
  · simp [demoEnginePaused]

/-- Defaulted lookup in a table of non-negative values is non-negative. -/
theorem mapGetD_nonneg (adjs : List (String × ℚ)) (s : String)
    (h : ∀ p ∈ adjs, 0 ≤ p.2) : 0 ≤ mapGetD adjs s 0 := by
  rcases hf : adjs.find? (fun p => p.1 = s) with _ | q
  · simp [mapGetD, mapGet, hf]
  · have := h q (List.mem_of_find?_eq_some hf)
    simp [mapGetD, mapGet, hf, this]

/-- Claim C7.  The per-instrument adaptive adjustment starts at zero (absent
key reads as 0); each recorded loss on an instrument raises exactly the adjustment of that
instrument by exactly 0.02 (`closeTrade` on a loss either
applies `recordLossAdj` or — when the loss also starts a calibration pause —
ends with the adjustments reset); beginning a calibration pause resets the
table to empty (hence to exactly zero); after N consecutive recorded losses
since the last reset the adjustment equals N × 0.02; and a loss step never
decreases any adjustment and preserves non-negativity. -/
theorem c7_adaptive_adjustment :
    (∀ s : String, mapGetD ([] : List (String × ℚ)) s 0 = 0) ∧
    (∀ (adjs : List (String × ℚ)) (s : String),
      mapGetD (recordLossAdj adjs s) s 0 = mapGetD adjs s 0 + 0.02) ∧
    (∀ (st : EngineState) (id : String) (profit : ℚ) (now : ℕ) (tr : Trade),
      mapGet st.activeTrades id = some tr →
      (closeTrade id TradeOutcome.loss profit now st).symbolAdjustments = [] ∨
      (closeTrade id TradeOutcome.loss profit now st).symbolAdjustments
        = recordLossAdj st.symbolAdjustments tr.symbol) ∧
    (∀ (now : ℕ) (st : EngineState),
      (pauseForCalibration now st).symbolAdjustments = []) ∧
    (∀ (N : ℕ) (s : String),
      mapGetD ((fun a => recordLossAdj a s)^[N] []) s 0 = (N : ℚ) * 0.02) ∧
    (∀ (adjs : List (String × ℚ)) (s s2 : String),
      mapGetD adjs s 0 ≤ mapGetD (recordLossAdj adjs s2) s 0) ∧
    (∀ (adjs : List (String × ℚ)) (s2 : String),
      (∀ p ∈ adjs, 0 ≤ p.2) → ∀ p ∈ recordLossAdj adjs s2, 0 ≤ p.2) := by
  have step : ∀ (adjs : List (String × ℚ)) (s : String),
      mapGetD (recordLossAdj adjs s) s 0 = mapGetD adjs s 0 + 0.02 := by
    intro adjs s
    simp [recordLossAdj, mapGetD, mapGet_set_self]
  refine ⟨?_, step, ?_, ?_, ?_, ?_, ?_⟩
  · intro s; simp [mapGetD, mapGet]
  · intro st id profit now tr hget
    unfold closeTrade
    rw [hget]
    have hloss : (TradeOutcome.loss = TradeOutcome.win) = False := by simp
    simp only [hloss, if_false]
    split_ifs <;>
      first
      | (left; rfl)
      | (right; rfl)
  · intro now st; rfl
  · intro N s
    induction N with
    | zero => simp [mapGetD, mapGet]
    | succ n ih =>
      rw [Function.iterate_succ_apply', step, ih]
      push_cast
      ring
  · intro adjs s s2
    by_cases hss : s = s2
    · subst hss
      rw [step]
      linarith [show (0:ℚ) ≤ 0.02 from by norm_num]
    · unfold recordLossAdj mapGetD
      rw [mapGet_set_other adjs s2 s _ hss]
  · intro adjs s2 hnn p hp
    have hv : 0 ≤ mapGetD adjs s2 0 + 0.02 := by
      have := mapGetD_nonneg adjs s2 hnn
      linarith [show (0:ℚ) ≤ 0.02 from by norm_num]
    unfold recordLossAdj mapSet at hp
    by_cases hh : mapHas adjs s2 = true
    · rw [if_pos hh] at hp
      simp only [List.mem_map] at hp
      obtain ⟨q, hq, hpe⟩ := hp
      by_cases hq2 : q.1 = s2
      · rw [← hpe, if_pos hq2]
        exact hv
      · rw [← hpe, if_neg hq2]
        exact hnn q hq
    · rw [if_neg hh] at hp
      rcases List.mem_append.mp hp with h1 | h1
      · exact hnn p h1
      · rw [List.mem_singleton.mp h1]
        exact hv

/-- Witness for C7: closing the single open trade of a fresh engine as a loss
applies the 0.02 increment path, and a loss step on a non-negative table
stays non-negative. -/
theorem c7_adaptive_adjustment_witness :
    ((closeTrade "R_10_LONG_1" TradeOutcome.loss (-1) 50
        demoEngineFresh).symbolAdjustments = [] ∨
     (closeTrade "R_10_LONG_1" TradeOutcome.loss (-1) 50
        demoEngineFresh).symbolAdjustments
       = recordLossAdj demoEngineFresh.symbolAdjustments demoOpenTrade.symbol) ∧
    (∀ p ∈ recordLossAdj [("R_25", 0.04)] "R_10", 0 ≤ p.2) :=
  ⟨c7_adaptive_adjustment.2.2.1 demoEngineFresh "R_10_LONG_1" (-1) 50
      demoOpenTrade (by simp [demoEngineFresh, mapGet]),
   c7_adaptive_adjustment.2.2.2.2.2.2 [("R_25", 0.04)] "R_10"
      (by intro p hp; simp only [List.mem_singleton] at hp; subst hp; norm_num)⟩

/-- The seeding fold of `calculateRSI` keeps both accumulated sums
non-negative, hence the initial averages are non-negative. -/
theorem rsiInit_nonneg (changes : List ℚ) (period : ℕ) :
    0 ≤ (rsiInit changes period).1 ∧ 0 ≤ (rsiInit changes period).2 := by
  have key : ∀ (l : List ℚ) (gl : ℚ × ℚ), 0 ≤ gl.1 → 0 ≤ gl.2 →
      0 ≤ (l.foldl (fun gl c => if c > 0 then (gl.1 + c, gl.2)
            else (gl.1, gl.2 + |c|)) gl).1 ∧
      0 ≤ (l.foldl (fun gl c => if c > 0 then (gl.1 + c, gl.2)
            else (gl.1, gl.2 + |c|)) gl).2 := by
    intro l
    induction l with
    | nil => intro gl h1 h2; exact ⟨h1, h2⟩
    | cons c t ih =>
      intro gl h1 h2
      simp only [List.foldl_cons]
      by_cases hc : c > 0
      · rw [if_pos hc]
        exact ih _ (add_nonneg h1 hc.le) h2
      · rw [if_neg hc]
        exact ih _ h1 (add_nonneg h2 (abs_nonneg c))
  unfold rsiInit
  obtain ⟨h1, h2⟩ := key (changes.take period) (0, 0) le_rfl le_rfl
  have hp0 : (0:ℚ) ≤ (period:ℚ) := Nat.cast_nonneg period
  exact ⟨div_nonneg h1 hp0, div_nonneg h2 hp0⟩

/-- The Wilder smoothing loop of `calculateRSI` preserves non-negativity of
both averages (for a positive period). -/
theorem rsiSmooth_nonneg (period : ℕ) (hp : 1 ≤ period) :
    ∀ (l : List ℚ) (gl : ℚ × ℚ), 0 ≤ gl.1 → 0 ≤ gl.2 →
      0 ≤ (l.foldl (rsiSmoothStep period) gl).1 ∧
      0 ≤ (l.foldl (rsiSmoothStep period) gl).2 := by
  have hpq : (0:ℚ) ≤ (period:ℚ) - 1 := by
    have h1 : (1:ℚ) ≤ (period:ℚ) := by exact_mod_cast hp
    linarith
  have hp0 : (0:ℚ) ≤ (period:ℚ) := Nat.cast_nonneg period
  intro l
  induction l with
  | nil => intro gl h1 h2; exact ⟨h1, h2⟩
  | cons c t ih =>
    intro gl h1 h2
    simp only [List.foldl_cons]
    unfold rsiSmoothStep
    by_cases hc : c > 0
    · rw [if_pos hc]
      refine ih _ ?_ ?_
      · exact div_nonneg (add_nonneg (mul_nonneg h1 hpq) hc.le) hp0
      · exact div_nonneg (mul_nonneg h2 hpq) hp0
    · rw [if_neg hc]
      refine ih _ ?_ ?_
      · exact div_nonneg (mul_nonneg h1 hpq) hp0
      · exact div_nonneg (add_nonneg (mul_nonneg h2 hpq) (abs_nonneg c)) hp0

/-- Both Wilder-smoothed averages of `calculateRSI` are non-negative. -/
theorem rsiAverages_nonneg (data : List ℚ) (period : ℕ) (hp : 1 ≤ period) :
    0 ≤ (rsiAverages data period).1 ∧ 0 ≤ (rsiAverages data period).2 := by
  unfold rsiAverages
  obtain ⟨h1, h2⟩ := rsiInit_nonneg (priceChanges data) period
  exact rsiSmooth_nonneg period hp _ _ h1 h2

/-- Claim C8.  For every price sequence of length at least `period + 1` (with
a positive period, as configured), `calculateRSI` returns a value in
`[0, 100]`; and whenever the Wilder-smoothed average loss is exactly zero it
returns exactly 100, without dividing by zero. -/
theorem c8_rsi_bounds :
    (∀ (data : List ℚ) (period : ℕ), 1 ≤ period → period + 1 ≤ data.length →
      ∃ r, calculateRSI data period = some r ∧ 0 ≤ r ∧ r ≤ 100) ∧
    (∀ (data : List ℚ) (period : ℕ), period + 1 ≤ data.length →
      (rsiAverages data period).2 = 0 → calculateRSI data period = some 100) := by
  constructor
  · intro data period hp hlen
    have hnl : ¬ data.length < period + 1 := by omega
    obtain ⟨hg, hl⟩ := rsiAverages_nonneg data period hp
    unfold calculateRSI
    rw [if_neg hnl]
    by_cases hz : (rsiAverages data period).2 = 0
    · rw [if_pos hz]
      exact ⟨100, rfl, by norm_num, by norm_num⟩
    · rw [if_neg hz]
      refine ⟨_, rfl, ?_, ?_⟩ <;>
      · have hlpos : 0 < (rsiAverages data period).2 := lt_of_le_of_ne hl (Ne.symm hz)
        have hrs : 0 ≤ (rsiAverages data period).1 / (rsiAverages data period).2 :=
          div_nonneg hg hl
        have h1rs : (0:ℚ) <
            1 + (rsiAverages data period).1 / (rsiAverages data period).2 := by
          linarith
        have hq1 : 0 < 100 /
            (1 + (rsiAverages data period).1 / (rsiAverages data period).2) :=
          div_pos (by norm_num) h1rs
        have hq2 : 100 /
            (1 + (rsiAverages data period).1 / (rsiAverages data period).2) ≤ 100 := by
          apply div_le_self (by norm_num)
          linarith
        linarith
  · intro data period hlen hz
    have hnl : ¬ data.length < period + 1 := by omega
    unfold calculateRSI
    rw [if_neg hnl, if_pos hz]

/-- Witness for C8: a strictly increasing 15-point sequence with the default
period 14 has smoothed average loss 0 and RSI exactly 100. -/
theorem c8_rsi_bounds_witness :
    calculateRSI [1, 2, 3, 4, 5, 6, 7, 8, 9, 10, 11, 12, 13, 14, 15] 14 = some 100 :=
  c8_rsi_bounds.2 [1, 2, 3, 4, 5, 6, 7, 8, 9, 10, 11, 12, 13, 14, 15] 14
    (by norm_num)
    (by norm_num [rsiAverages, rsiInit, rsiSmoothStep, priceChanges])

/-- For equal-length inputs, the directional-movement/true-range list has one
entry per index from 1, i.e. length `n − 1`. -/
theorem adxSteps_length : ∀ (hs ls cs : List ℚ), hs.length = ls.length →
    hs.length = cs.length → (adxSteps hs ls cs).length = hs.length - 1 := by
  intro hs
  induction hs with
  | nil => intro ls cs _ _; rfl
  | cons a t ih =>
    intro ls cs hl hc
    cases t with
    | nil =>
      cases ls with
      | nil => simp at hl
      | cons x ls2 =>
        cases ls2 with
        | nil =>
          cases cs with
          | nil => simp at hc
          | cons u cs2 =>
            cases cs2 with
            | nil => rfl
            | cons v cs3 => simp at hc
        | cons y ls3 => simp at hl
    | cons b t2 =>
      cases ls with
      | nil => simp at hl
      | cons x ls2 =>
        cases ls2 with
        | nil => simp at hl
        | cons y ls3 =>
          cases cs with
          | nil => simp at hc
          | cons u cs2 =>
            cases cs2 with
            | nil => simp at hc
            | cons v cs3 =>
              have hl2 : (b :: t2).length = (y :: ls3).length := by
                simpa using hl
              have hc2 : (b :: t2).length = (v :: cs3).length := by
                simpa using hc
              have hrec := ih (y :: ls3) (v :: cs3) hl2 hc2
              simp only [adxSteps, List.length_cons, hrec]
              omega

/-- When every DI sum of the smoothing loop is positive, a DX value is pushed
at every iteration, so the DX list is as long as the remaining step list. -/
theorem adxDXLoop_length_of_pos :
    ∀ (steps : List (ℚ × ℚ × ℚ)) (period : ℕ) (a b c : ℚ),
      (∀ x ∈ adxDISumLoop period a b c steps, 0 < x) →
      (adxDXLoop period a b c steps).length = steps.length := by
  intro steps
  induction steps with
  | nil => intro period a b c _; rfl
  | cons s rest ih =>
    intro period a b c hpos
    have hex : adxDISumLoop period a b c (s :: rest)
        = ((b - b / (period:ℚ) + s.1) / (a - a / (period:ℚ) + s.2.2) * 100
            + (c - c / (period:ℚ) + s.2.1) / (a - a / (period:ℚ) + s.2.2) * 100)
          :: adxDISumLoop period (a - a / (period:ℚ) + s.2.2)
              (b - b / (period:ℚ) + s.1) (c - c / (period:ℚ) + s.2.1) rest := rfl
    have hhead := hpos _ (by rw [hex]; exact List.mem_cons_self _ _)
    have htail : ∀ x ∈ adxDISumLoop period (a - a / (period:ℚ) + s.2.2)
        (b - b / (period:ℚ) + s.1) (c - c / (period:ℚ) + s.2.1) rest, 0 < x := by
      intro x hx
      exact hpos x (by rw [hex]; exact List.mem_cons_of_mem _ hx)
    unfold adxDXLoop
    simp only []
    rw [if_pos hhead]
    simp only [List.length_cons]
    rw [ih _ _ _ _ htail]

/-- Claim C9, counterexample.  A strictly increasing 28-sample input — length
exactly `2 × period` for the default period 14 — has every DI sum positive,
yet `calculateADX` still returns `none`: after seeding, only
`28 − 1 − 14 = 13 < 14` DX values can ever be collected, so the `2 × period`
window does NOT suffice for availability. -/
theorem c9_two_period_window_insufficient :
    (∀ x ∈ adxDISums inc28 inc28 inc28 14, 0 < x) ∧
    inc28.length = 2 * 14 ∧
    calculateADX inc28 inc28 inc28 14 = none := by
  refine ⟨?_, by norm_num [inc28], ?_⟩
  · norm_num [adxDISums, adxDISumLoop, adxSteps, inc28, sumQ]
  · norm_num [calculateADX, adxDX, adxDXLoop, adxSteps, inc28, sumQ]

/-- Claim C9, amended.  `calculateADX` reports unavailable (`none`) for every
input shorter than its `2 × period` gate, skipping the directional index at
any step whose DI sum is not positive; and for every equal-length
highs/lows/closes input of length at least `2 × period + 1` whose DI sums are
all positive it returns a numeric value — `2 × period + 1`, not `2 × period`,
is the minimum window for availability. -/
theorem c9_adx_availability_amended :
    (∀ (hs ls cs : List ℚ) (period : ℕ), hs.length < period * 2 →
      calculateADX hs ls cs period = none) ∧
    (∀ (hs ls cs : List ℚ) (period : ℕ),
      hs.length = ls.length → hs.length = cs.length →
      2 * period + 1 ≤ hs.length →
      (∀ x ∈ adxDISums hs ls cs period, 0 < x) →
      ∃ v, calculateADX hs ls cs period = some v) := by
  constructor
  · intro hs ls cs period h
    unfold calculateADX
    rw [if_pos h]
  · intro hs ls cs period hl hc hlen hpos
    have hn1 : ¬ hs.length < period * 2 := by omega
    have hsteps : (adxSteps hs ls cs).length = hs.length - 1 :=
      adxSteps_length hs ls cs hl hc
    have hdxlen : (adxDX hs ls cs period).length = hs.length - 1 - period := by
      have hpos2 : ∀ x ∈ adxDISumLoop period
          (sumQ (((adxSteps hs ls cs).take period).map (fun s => s.2.2)))
          (sumQ (((adxSteps hs ls cs).take period).map (fun s => s.1)))
          (sumQ (((adxSteps hs ls cs).take period).map (fun s => s.2.1)))
          ((adxSteps hs ls cs).drop period), 0 < x := hpos
      have hrw := adxDXLoop_length_of_pos
        ((adxSteps hs ls cs).drop period) period
        (sumQ (((adxSteps hs ls cs).take period).map (fun s => s.2.2)))
        (sumQ (((adxSteps hs ls cs).take period).map (fun s => s.1)))
        (sumQ (((adxSteps hs ls cs).take period).map (fun s => s.2.1)))
        hpos2
      unfold adxDX
      simp only []
      rw [hrw, List.length_drop, hsteps]
    have hn2 : ¬ (adxDX hs ls cs period).length < period := by omega
    unfold calculateADX
    rw [if_neg hn1]
    simp only []
    rw [if_neg hn2]
    exact ⟨_, rfl⟩

/-- Witness for C9: the empty input is reported unavailable, and the
29-sample strictly increasing input (= 2 × period + 1) with all DI sums
positive yields a numeric ADX. -/
theorem c9_adx_availability_amended_witness :
    calculateADX [] [] [] 14 = none ∧
    ∃ v, calculateADX inc29 inc29 inc29 14 = some v :=
  ⟨c9_adx_availability_amended.1 [] [] [] 14 (by norm_num),
   c9_adx_availability_amended.2 inc29 inc29 inc29 14 rfl rfl (by norm_num [inc29])
     (by norm_num [adxDISums, adxDISumLoop, adxSteps, inc29, sumQ])⟩

/-- The running sum of a list of zeros is zero. -/
theorem sumQ_replicate_zero : ∀ n : ℕ, sumQ (List.replicate n 0) = 0 := by
  have key : ∀ (n : ℕ) (a : ℚ),
      (List.replicate n (0:ℚ)).foldl (fun x y => x + y) a = a := by
    intro n
    induction n with
    | zero => intro a; rfl
    | succ m ih => intro a; simp [List.replicate_succ, ih]
  intro n
  simpa [sumQ] using key n 0

/-- Claim C10.  Whenever `calculateBollingerBands` returns a band whose
value is exactly 0, `calculateAllIndicators` reports the corresponding
snapshot field as absent (`none`): the JS defaulting operator `|| null`
coerces the falsy number 0 to null.  In particular, 30 samples of price 0 —
ample history for the 20-sample window — produce the band triple
(0, 0, 0) and yet all three snapshot fields are absent. -/
theorem c10_zero_band_coerced_to_null :
    (∀ (sqrtFn : ℚ → ℚ) (prices : List ℚ) (b : BollingerBands),
      calculateBollingerBands sqrtFn prices 20 2 = some b →
      (b.upper = 0 → (calculateAllIndicators sqrtFn prices).bollingerUpper = none) ∧
      (b.middle = 0 → (calculateAllIndicators sqrtFn prices).bollingerMiddle = none) ∧
      (b.lower = 0 → (calculateAllIndicators sqrtFn prices).bollingerLower = none)) ∧
    (∀ sqrtFn : ℚ → ℚ, sqrtFn 0 = 0 →
      calculateBollingerBands sqrtFn (List.replicate 30 0) 20 2
        = some { upper := 0, middle := 0, lower := 0 } ∧
      (calculateAllIndicators sqrtFn (List.replicate 30 0)).bollingerUpper = none ∧
      (calculateAllIndicators sqrtFn (List.replicate 30 0)).bollingerMiddle = none ∧
      (calculateAllIndicators sqrtFn (List.replicate 30 0)).bollingerLower = none) := by
  have part1 : ∀ (sqrtFn : ℚ → ℚ) (prices : List ℚ) (b : BollingerBands),
      calculateBollingerBands sqrtFn prices 20 2 = some b →
      (b.upper = 0 → (calculateAllIndicators sqrtFn prices).bollingerUpper = none) ∧
      (b.middle = 0 → (calculateAllIndicators sqrtFn prices).bollingerMiddle = none) ∧
      (b.lower = 0 → (calculateAllIndicators sqrtFn prices).bollingerLower = none) := by
    intro sqrtFn prices b hb
    refine ⟨?_, ?_, ?_⟩ <;> intro h0 <;>
      simp [calculateAllIndicators, hb, orNull, h0]
  refine ⟨part1, ?_⟩
  intro sqrtFn hs
  have hband : calculateBollingerBands sqrtFn (List.replicate 30 0) 20 2
      = some { upper := 0, middle := 0, lower := 0 } := by
    unfold calculateBollingerBands takeLast
    rw [if_neg (by simp)]
    norm_num [List.drop_replicate, List.map_replicate, sumQ_replicate_zero, hs]
  obtain ⟨h1, h2, h3⟩ := part1 sqrtFn (List.replicate 30 0) _ hband
  exact ⟨hband, h1 rfl, h2 rfl, h3 rfl⟩

/-- Witness for C10: with a square root fixed at 0 on 0, all three band
fields of the 30-zero-price snapshot are reported absent. -/
theorem c10_zero_band_coerced_to_null_witness :
    (calculateAllIndicators (fun _ => 0) (List.replicate 30 0)).bollingerUpper = none ∧
    (calculateAllIndicators (fun _ => 0) (List.replicate 30 0)).bollingerMiddle = none ∧
    (calculateAllIndicators (fun _ => 0) (List.replicate 30 0)).bollingerLower = none := by
  obtain ⟨-, h1, h2, h3⟩ := c10_zero_band_coerced_to_null.2 (fun _ => 0) rfl
  exact ⟨h1, h2, h3⟩
